import Mathlib

/-!
Verification of the SoundBase catalog repository layer.

The Python repository layer (soundbase/utils/db_utils.py, soundbase/db/models.py,
soundbase/utils/general_utils.py) is shallowly embedded below.  A SQLAlchemy
session over the SQLite store is modelled as a pair of database states: the
committed state and the current (session-visible, possibly un-flushed) state.
Each repository function becomes a Lean function from a session and its
arguments to a result value (one constructor per `return {...}` site of the
Python function) and the new session.  `session.commit()` is modelled as
checking the uniqueness constraints SQLite enforces (the declared UNIQUE
columns and primary keys; SQLite does not enforce foreign keys here since the
code never issues `PRAGMA foreign_keys=ON`) and, on success, making the current
state durable; a failed commit raises, and every `except SQLAlchemyError`
branch in the source rolls the session back to the committed state.
-/

namespace SoundBase

/-! ## Python string helpers -/

/-- Characters stripped by Python's `str.strip()` (ASCII whitespace). -/
def isPySpace (c : Char) : Bool :=
  c == ' ' || c == '\t' || c == '\n' || c == '\r' || c == '\x0b' || c == '\x0c'

/-- Python `s.strip()` on ASCII input. -/
def pyStrip (s : String) : String :=
  String.mk ((s.data.dropWhile isPySpace).reverse.dropWhile isPySpace |>.reverse)

/-- Python `s.rstrip('/')`. -/
def pyRstripSlash (s : String) : String :=
  String.mk ((s.data.reverse.dropWhile (fun c => c == '/')).reverse)

/-- The url normalisation `url.strip().rstrip('/')` used throughout db_utils. -/
def normUrl (s : String) : String :=
  pyRstripSlash (pyStrip s)

/-! ## SHA-256 (general_utils.sha256_hash)

`sha256_hash(data)` in soundbase/utils/general_utils.py is
`hashlib.sha256(data.encode()).hexdigest()`: the SHA-256 digest of the UTF-8
encoding of the string, rendered as 64 lowercase hex characters.  The full
algorithm (FIPS 180-4) is embedded executably: 32-bit words are `Nat` reduced
mod 2^32. -/

def w32 (x : Nat) : Nat := x % 4294967296

def rotr32 (n x : Nat) : Nat :=
  w32 ((x >>> n) ||| (x <<< (32 - n)))

/-- Bitwise complement within 32 bits. -/
def not32 (x : Nat) : Nat := 4294967295 ^^^ x

/-- UTF-8 encoding of a string as a byte list. -/
def utf8Encode (s : String) : List Nat :=
  s.data.flatMap fun c =>
    let n := c.toNat
    if n < 128 then [n]
    else if n < 2048 then [192 ||| (n >>> 6), 128 ||| (n % 64)]
    else if n < 65536 then
      [224 ||| (n >>> 12), 128 ||| ((n >>> 6) % 64), 128 ||| (n % 64)]
    else
      [240 ||| (n >>> 18), 128 ||| ((n >>> 12) % 64), 128 ||| ((n >>> 6) % 64),
        128 ||| (n % 64)]

/-- The eight-byte big-endian encoding of a (64-bit) natural number. -/
def be64 (n : Nat) : List Nat :=
  [ (n >>> 56) % 256, (n >>> 48) % 256, (n >>> 40) % 256, (n >>> 32) % 256,
    (n >>> 24) % 256, (n >>> 16) % 256, (n >>> 8) % 256, n % 256 ]

/-- SHA-256 message padding: append 0x80, zeros to 56 mod 64, then the
bit length as a 64-bit big-endian integer. -/
def sha256Pad (msg : List Nat) : List Nat :=
  let L := msg.length
  let k := (119 - (L % 64)) % 64
  msg ++ (128 :: List.replicate k 0) ++ be64 (8 * L)

/-- Group a byte list into big-endian 32-bit words. -/
def toWords : List Nat → List Nat
  | a :: b :: c :: d :: rest => (((a * 256 + b) * 256 + c) * 256 + d) :: toWords rest
  | _ => []

/-- Group a word list into 16-word blocks (structural recursion on a fuel
bound so that the kernel can evaluate it). -/
def toBlocksAux : Nat → List Nat → List (List Nat)
  | 0, _ => []
  | _ + 1, [] => []
  | fuel + 1, w :: ws => ((w :: ws).take 16) :: toBlocksAux fuel ((w :: ws).drop 16)

def toBlocks (l : List Nat) : List (List Nat) := toBlocksAux l.length l

/-- The `i`-th element of a word list (0 when out of range). -/
def wAt (l : List Nat) (i : Nat) : Nat := (l.drop i).headD 0

def ssig0 (x : Nat) : Nat := rotr32 7 x ^^^ rotr32 18 x ^^^ (x >>> 3)
def ssig1 (x : Nat) : Nat := rotr32 17 x ^^^ rotr32 19 x ^^^ (x >>> 10)
def bsig0 (x : Nat) : Nat := rotr32 2 x ^^^ rotr32 13 x ^^^ rotr32 22 x
def bsig1 (x : Nat) : Nat := rotr32 6 x ^^^ rotr32 11 x ^^^ rotr32 25 x

/-- The 64 SHA-256 round constants. -/
def sha256K : List Nat :=
  [ 1116352408, 1899447441, 3049323471, 3921009573, 961987163,
    1508970993, 2453635748, 2870763221, 3624381080, 310598401,
    607225278, 1426881987, 1925078388, 2162078206, 2614888103,
    3248222580, 3835390401, 4022224774, 264347078, 604807628,
    770255983, 1249150122, 1555081692, 1996064986, 2554220882,
    2821834349, 2952996808, 3210313671, 3336571891, 3584528711,
    113926993, 338241895, 666307205, 773529912, 1294757372,
    1396182291, 1695183700, 1986661051, 2177026350, 2456956037,
    2730485921, 2820302411, 3259730800, 3345764771, 3516065817,
    3600352804, 4094571909, 275423344, 430227734, 506948616,
    659060556, 883997877, 958139571, 1322822218, 1537002063,
    1747873779, 1955562222, 2024104815, 2227730452, 2361852424,
    2428436474, 2756734187, 3204031479, 3329325298 ]

/-- The SHA-256 initial hash value. -/
def sha256H0 : List Nat :=
  [ 1779033703, 3144134277, 1013904242, 2773480762,
    1359893119, 2600822924, 528734635, 1541459225 ]

/-- Extend a 16-word block to the 64-word message schedule. -/
def sha256Schedule (block : List Nat) : List Nat :=
  (List.range 48).foldl
    (fun w _ =>
      let n := w.length
      w ++ [w32 (ssig1 (wAt w (n - 2)) + wAt w (n - 7) +
                 ssig0 (wAt w (n - 15)) + wAt w (n - 16))])
    block

/-- One round of the SHA-256 compression function. -/
def sha256Round (w : List Nat) (st : List Nat) (i : Nat) : List Nat :=
  match st with
  | [a, b, c, d, e, f, g, h] =>
    let t1 := w32 (h + bsig1 e + ((e &&& f) ^^^ (not32 e &&& g)) +
                   wAt sha256K i + wAt w i)
    let t2 := w32 (bsig0 a + ((a &&& b) ^^^ (a &&& c) ^^^ (b &&& c)))
    [w32 (t1 + t2), a, b, c, w32 (d + t1), e, f, g]
  | st => st

/-- Process one 16-word block. -/
def sha256Compress (h : List Nat) (block : List Nat) : List Nat :=
  let w := sha256Schedule block
  let st := (List.range 64).foldl (sha256Round w) h
  List.zipWith (fun x y => w32 (x + y)) h st

def hexDigit (n : Nat) : Char :=
  if n < 10 then Char.ofNat (48 + n) else Char.ofNat (87 + n)

/-- A 32-bit word as 8 lowercase hex characters. -/
def hex8 (x : Nat) : List Char :=
  (List.range 8).map fun i => hexDigit ((x >>> (4 * (7 - i))) % 16)

/-- Embeds `general_utils.sha256_hash` on a string argument. -/
def sha256_hash (s : String) : String :=
  let bytes := sha256Pad (utf8Encode s)
  let hs := (toBlocks (toWords bytes)).foldl sha256Compress sha256H0
  String.mk (hs.flatMap hex8)

/-! ## UUID strings

Python's `uuid.UUID(str)` raises `ValueError` when the string is not a valid
UUID.  It is modelled as a parser of the canonical 8-4-4-4-12 lowercase/upper
hex form (the form the application itself prints and accepts); the result is
the 128-bit value as a `Nat`. -/

def isHexChar (c : Char) : Bool :=
  ('0' ≤ c && c ≤ '9') || ('a' ≤ c && c ≤ 'f') || ('A' ≤ c && c ≤ 'F')

def hexVal (c : Char) : Nat :=
  if '0' ≤ c && c ≤ '9' then c.toNat - 48
  else if 'a' ≤ c && c ≤ 'f' then c.toNat - 87
  else c.toNat - 55

/-- Parsing `uuid.UUID(s)`: `some` of the 128-bit value, or `none` (= `ValueError`). -/
def parseUUID (s : String) : Option Nat :=
  let cs := s.data
  if cs.length == 36 &&
     (List.range 36).all (fun i =>
        let c := (cs.drop i).headD ' '
        if i == 8 || i == 13 || i == 18 || i == 23 then c == '-'
        else isHexChar c) then
    some ((cs.filter (fun c => c != '-')).foldl (fun acc c => acc * 16 + hexVal c) 0)
  else
    none

/-! ## SQL LIKE (SQLAlchemy `ilike` on SQLite)

`col.ilike(pat)` compiles to `lower(col) LIKE lower(pat)`: both sides are
ASCII-lowercased, `%` matches any sequence, `_` matches any single
character, and the pattern must match the whole string. -/

def lowerChar (c : Char) : Char :=
  if 'A' ≤ c && c ≤ 'Z' then Char.ofNat (c.toNat + 32) else c

/-- LIKE matching with an explicit fuel bound (each step shrinks
pattern-length + string-length, so `p.length + s.length + 1` fuel always
suffices; the fuel makes the recursion structural and kernel-evaluable). -/
def likeAux : Nat → List Char → List Char → Bool
  | 0, _, _ => false
  | _ + 1, [], s => s.isEmpty
  | fuel + 1, p :: ps, s =>
    if p = '%' then
      likeAux fuel ps s ||
        (match s with
         | [] => false
         | _ :: s' => likeAux fuel (p :: ps) s')
    else
      match s with
      | [] => false
      | c :: s' =>
        if p = '_' then likeAux fuel ps s'
        else lowerChar p == lowerChar c && likeAux fuel ps s'

def likeMatch (p s : List Char) : Bool :=
  likeAux (p.length + s.length + 1) p s

/-- The `col.ilike(pat)` check on strings. -/
def ilike (pat text : String) : Bool :=
  likeMatch pat.data text.data

/-! ## Data model (soundbase/db/models.py)

Entity ids (`uuid.uuid4()` values) are opaque `Nat`s; timestamps (`utcnow()`)
are `Nat`s supplied explicitly by the caller of each embedded operation.
Only columns the repository layer reads or writes are modelled. -/

structure Source where
  id : Nat
  name : String
  base_url : String
  created_on : Nat
deriving DecidableEq, Repr

structure Album where
  id : Nat
  name : String
deriving DecidableEq, Repr

structure Media where
  id : Nat
  url : String
  title : String
  hash : String
  source_id : Nat
  added_on : Nat
deriving DecidableEq, Repr

/-- The relational store: the three entity tables (in row/insertion order, the
order in which SQLite returns un-ORDER-BY'd queries) and the `album_media`
association table as (album_id, media_id) pairs. -/
structure DB where
  sources : List Source
  media : List Media
  albums : List Album
  assoc : List (Nat × Nat)
deriving DecidableEq, Repr

def DB.empty : DB := ⟨[], [], [], []⟩

/-- A SQLAlchemy session: the committed database plus the session-visible
current state (committed + pending, un-committed changes).  Queries read the
current state (autoflush); `commit` makes it durable; `rollback` discards it. -/
structure Session where
  committed : DB
  current : DB
deriving DecidableEq, Repr

def Session.clean (db : DB) : Session := ⟨db, db⟩

/-- Checks that no element's `f`-value repeats: used to
state the uniqueness constraints. -/
def nodupBy (f : α → Nat) : List α → Bool
  | [] => true
  | x :: xs => !(xs.any (fun y => f y == f x)) && nodupBy f xs

def nodupByS (f : α → String) : List α → Bool
  | [] => true
  | x :: xs => !(xs.any (fun y => f y == f x)) && nodupByS f xs

/-- The constraints SQLite enforces on this schema: primary keys, and the
UNIQUE columns Source.name, Source.base_url, Media.url, Media.hash,
Album.name.  Foreign keys are NOT enforced (no `PRAGMA foreign_keys=ON`
anywhere in the repository), and the association-table primary key is never
violated by construction. -/
def dbOK (db : DB) : Bool :=
  nodupBy Source.id db.sources && nodupByS Source.name db.sources &&
  nodupByS Source.base_url db.sources &&
  nodupBy Media.id db.media && nodupByS Media.url db.media &&
  nodupByS Media.hash db.media &&
  nodupBy Album.id db.albums && nodupByS Album.name db.albums

/-! ## Repository operations (soundbase/utils/db_utils.py)

Each operation returns a result value — one constructor per `return {...}`
dictionary of the Python function, carrying that dictionary's entity-specific
payload — together with the session after the call.  Constructors named
`err*` correspond to `{"status": "error", ...}` returns, the rest to
`{"status": "success", ...}`. -/

inductive Status where
  | success
  | error
deriving DecidableEq, Repr

/-- Models `session.commit()` inside a `try`: on constraint violation SQLAlchemy
raises, the `except SQLAlchemyError` branch calls `session.rollback()`.
Returns whether the commit succeeded, and the session afterwards. -/
def commitOrRollback (s : Session) (cur : DB) : Bool × Session :=
  if dbOK cur then (true, ⟨cur, cur⟩)
  else (false, ⟨s.committed, s.committed⟩)

/-- Python truthiness of an optional string argument (`if title:`). -/
def truthyS : Option String → Bool
  | none => false
  | some t => t != ""

/-- Result of `add_source_to_db`. -/
inductive AddSourceRes where
  | errBaseUrlExists (base_url : String)
  | success (source_id : Nat) (source_name source_base_url : String)
  | errSqlalchemy
deriving DecidableEq, Repr

def AddSourceRes.status : AddSourceRes → Status
  | .success _ _ _ => .success
  | _ => .error

/-- Embeds `add_source_to_db(session, name, base_url)`.  `newId` is the
`uuid.uuid4()` default generated for the row, `now` the `utcnow()` value. -/
def add_source_to_db (s : Session) (name base_url : String) (newId now : Nat) :
    AddSourceRes × Session :=
  let name := pyStrip name
  let base_url := pyRstripSlash (pyStrip base_url)
  match s.current.sources.find? (fun src => src.base_url == base_url) with
  | some _ => (.errBaseUrlExists base_url, s)
  | none =>
    let source : Source := ⟨newId, name, base_url, now⟩
    let cur := { s.current with sources := s.current.sources ++ [source] }
    match commitOrRollback s cur with
    | (true, s') => (.success newId name base_url, s')
    | (false, s') => (.errSqlalchemy, s')

/-- Result of `add_media_to_db`. -/
inductive AddMediaRes where
  | errBadAlbumUUIDs
  | errUrlExists (url : String)
  | errAlbumsInvalid
  | success (media_id : Nat) (media_title media_url : String)
      (media_albums : List Nat)
  | errSqlalchemy
deriving DecidableEq, Repr

def AddMediaRes.status : AddMediaRes → Status
  | .success _ _ _ _ => .success
  | _ => .error

/-- Embeds `add_media_to_db(session, url, title, source_id, album_ids=None)`;
`album_ids` is a list of UUID strings from the CLI. -/
def add_media_to_db (s : Session) (url title : String) (source_id : Nat)
    (album_ids : Option (List String)) (newId now : Nat) :
    AddMediaRes × Session :=
  let title := pyStrip title
  let url := pyRstripSlash (pyStrip url)
  let parsed : Option (List Nat) :=
    match album_ids with
    | none => some []
    | some l => if l.isEmpty then some [] else l.mapM parseUUID
  match parsed with
  | none => (.errBadAlbumUUIDs, s)
  | some album_uuids =>
    match s.current.media.find? (fun m => m.url == url) with
    | some _ => (.errUrlExists url, s)
    | none =>
      -- Media(url=url, ...): the @validates('url') hook sets hash = sha256_hash(url)
      let media : Media := ⟨newId, url, title, sha256_hash url, source_id, now⟩
      if album_uuids.isEmpty then
        let cur := { s.current with media := s.current.media ++ [media] }
        match commitOrRollback s cur with
        | (true, s') => (.success newId title url [], s')
        | (false, s') => (.errSqlalchemy, s')
      else
        let albums := s.current.albums.filter (fun a => album_uuids.contains a.id)
        if albums.isEmpty || albums.length != album_uuids.length then
          (.errAlbumsInvalid, s)
        else
          let cur := { s.current with
            media := s.current.media ++ [media],
            assoc := s.current.assoc ++ albums.map (fun a => (a.id, newId)) }
          match commitOrRollback s cur with
          | (true, s') => (.success newId title url (albums.map Album.id), s')
          | (false, s') => (.errSqlalchemy, s')

/-- Result of `add_album_to_db`. -/
inductive AddAlbumRes where
  | errNameExists (name : String)
  | errBadMediaUUIDs
  | errMediaNotFound (missing_ids : List Nat)
  | success (album_id : Nat) (album_name : String)
      (associated_media_ids : List Nat)
  | errSqlalchemy
deriving DecidableEq, Repr

def AddAlbumRes.status : AddAlbumRes → Status
  | .success _ _ _ => .success
  | _ => .error

/-- Drop repeated elements, keeping first occurrences. -/
def dedupAux (seen : List Nat) : List Nat → List Nat
  | [] => []
  | x :: xs => if seen.contains x then dedupAux seen xs
               else x :: dedupAux (x :: seen) xs

/-- Python `set(xs) - set(ys)` as a duplicate-free list. -/
def setDiff (xs ys : List Nat) : List Nat :=
  dedupAux [] (xs.filter (fun x => !(ys.contains x)))

/-- Embeds `add_album_to_db(session, name, media_ids=None)`. -/
def add_album_to_db (s : Session) (name : String)
    (media_ids : Option (List String)) (newId : Nat) :
    AddAlbumRes × Session :=
  let name := pyStrip name
  match s.current.albums.find? (fun a => a.name == name) with
  | some _ => (.errNameExists name, s)
  | none =>
    let parsed : Option (List Nat) :=
      match media_ids with
      | none => some []
      | some l => if l.isEmpty then some [] else l.mapM parseUUID
    match parsed with
    | none => (.errBadMediaUUIDs, s)
    | some media_uuids =>
      let album : Album := ⟨newId, name⟩
      if media_uuids.isEmpty then
        let cur := { s.current with albums := s.current.albums ++ [album] }
        match commitOrRollback s cur with
        | (true, s') => (.success newId name [], s')
        | (false, s') => (.errSqlalchemy, s')
      else
        let media_entries := s.current.media.filter (fun m => media_uuids.contains m.id)
        if media_entries.length != media_uuids.length then
          (.errMediaNotFound (setDiff media_uuids (media_entries.map Media.id)), s)
        else
          let cur := { s.current with
            albums := s.current.albums ++ [album],
            assoc := s.current.assoc ++ media_entries.map (fun m => (newId, m.id)) }
          match commitOrRollback s cur with
          | (true, s') => (.success newId name (media_entries.map Media.id), s')
          | (false, s') => (.errSqlalchemy, s')

/-- An id argument that may be a string or an already-parsed UUID
(`if isinstance(x, str): x = UUID(x)`). -/
def resolveIdArg : Sum String Nat → Except String Nat
  | .inl str =>
    match parseUUID str with
    | some n => .ok n
    | none => .error "ValueError: badly formed hexadecimal UUID string"
  | .inr n => .ok n

/-- Result of `delete_media_from_db`. -/
inductive DelMediaRes where
  | success (media_id : Nat)
  | errSqlalchemy
  | errNotFound (media_id : Nat)
deriving DecidableEq, Repr

def DelMediaRes.status : DelMediaRes → Status
  | .success _ => .success
  | _ => .error

/-- Embeds `delete_media_from_db(session, media_id)`.  The `UUID(media_id)`
conversion happens OUTSIDE any try/except, so a malformed string escapes as
an uncaught `ValueError` (the `Except.error` case). -/
def delete_media_from_db (s : Session) (media_id : Sum String Nat) :
    Except String (DelMediaRes × Session) :=
  match resolveIdArg media_id with
  | .error e => .error e
  | .ok mid =>
  match s.current.media.find? (fun m => m.id == mid) with
  | some _ =>
    -- session.delete(media) also deletes the album_media association rows
    let cur := { s.current with
      media := s.current.media.filter (fun m => m.id != mid),
      assoc := s.current.assoc.filter (fun p => p.2 != mid) }
    match commitOrRollback s cur with
    | (true, s') => .ok (.success mid, s')
    | (false, s') => .ok (.errSqlalchemy, s')
  | none => .ok (.errNotFound mid, s)

/-- Result of `delete_source_from_db`. -/
inductive DelSourceRes where
  | errConflict (source_name : String) (associated_media_count : Nat)
  | success (source_id : Nat)
  | errSqlalchemy
  | errNotFound (source_id : Nat)
deriving DecidableEq, Repr

def DelSourceRes.status : DelSourceRes → Status
  | .success _ => .success
  | _ => .error

/-- Embeds `delete_source_from_db(session, source_id)`.  As for media deletion, the
`UUID(source_id)` conversion can raise an uncaught `ValueError`. -/
def delete_source_from_db (s : Session) (source_id : Sum String Nat) :
    Except String (DelSourceRes × Session) :=
  match resolveIdArg source_id with
  | .error e => .error e
  | .ok sid =>
  match s.current.sources.find? (fun src => src.id == sid) with
  | some source =>
    let associated_media_count :=
      (s.current.media.filter (fun m => m.source_id == sid)).length
    if associated_media_count > 0 then
      .ok (.errConflict source.name associated_media_count, s)
    else
      let cur := { s.current with
        sources := s.current.sources.filter (fun src => src.id != sid) }
      match commitOrRollback s cur with
      | (true, s') => .ok (.success sid, s')
      | (false, s') => .ok (.errSqlalchemy, s')
  | none => .ok (.errNotFound sid, s)

/-- Result of `update_media_in_db`. -/
inductive UpdMediaRes where
  | errAlbumsNotFound (missing_ids : List Nat)
  | success (media_id : Nat)
  | errSqlalchemy
  | errNotFound (media_id : Nat)
deriving DecidableEq, Repr

def UpdMediaRes.status : UpdMediaRes → Status
  | .success _ => .success
  | _ => .error

/-- The field updates db_utils.py lines 326-336 apply to the session-held
Media row: `if title: ...`, `if url: ...` (the url assignment fires the
`@validates('url')` hook, whose hash is then overwritten on line 332 with
`sha256_hash(url)` of the RAW argument), `if source_id: ...`. -/
def updatedMedia (m : Media) (title url : Option String)
    (source_id : Option Nat) : Media :=
  let m := match title with
    | some t => if t != "" then { m with title := pyStrip t } else m
    | none => m
  let m := match url with
    | some u =>
      if u != "" then
        let m1 := { m with url := pyRstripSlash (pyStrip u),
                           hash := sha256_hash (pyRstripSlash (pyStrip u)) }
        { m1 with hash := sha256_hash u }
      else m
    | none => m
  match source_id with
  | some sid => { m with source_id := sid }
  | none => m

/-- Embeds `update_media_in_db(session, media_id, title=None, url=None,
source_id=None, album_ids=None)` with the id arguments already UUIDs (the
string branch of `isinstance` is exercised only by the CLI).  Field updates
mutate the session-held ORM object immediately; on the album-validation
error the function returns WITHOUT `session.rollback()`, so the mutations
stay pending in the current state. -/
def update_media_in_db (s : Session) (media_id : Nat)
    (title url : Option String) (source_id : Option Nat)
    (album_ids : Option (List Nat)) : UpdMediaRes × Session :=
  match s.current.media.find? (fun m => m.id == media_id) with
  | none => (.errNotFound media_id, s)
  | some m =>
    let m := updatedMedia m title url source_id
    let curMut := { s.current with
      media := s.current.media.map (fun x => if x.id == media_id then m else x) }
    let fin : Option (List Nat) → UpdMediaRes × Session := fun album_ids =>
      match album_ids with
      | some aids =>
        if !aids.isEmpty then
          let albums := curMut.albums.filter (fun a => aids.contains a.id)
          if albums.length != aids.length then
            (.errAlbumsNotFound (setDiff aids (albums.map Album.id)),
              { s with current := curMut })
          else
            let cur := { curMut with
              assoc := curMut.assoc.filter (fun p => p.2 != media_id) ++
                       albums.map (fun a => (a.id, media_id)) }
            match commitOrRollback s cur with
            | (true, s') => (.success media_id, s')
            | (false, s') => (.errSqlalchemy, s')
        else
          match commitOrRollback s curMut with
          | (true, s') => (.success media_id, s')
          | (false, s') => (.errSqlalchemy, s')
      | none =>
        match commitOrRollback s curMut with
        | (true, s') => (.success media_id, s')
        | (false, s') => (.errSqlalchemy, s')
    fin album_ids

/-- Result of `update_source_in_db`. -/
inductive UpdSourceRes where
  | success (source_id : Nat)
  | errSqlalchemy
  | errNotFound (source_id : Nat)
deriving DecidableEq, Repr

def UpdSourceRes.status : UpdSourceRes → Status
  | .success _ => .success
  | _ => .error

/-- The field updates db_utils.py lines 464-470 apply to the session-held
Source row: `if name: ...`, `if base_url: ...`. -/
def updatedSource (src : Source) (name base_url : Option String) : Source :=
  let src := match name with
    | some n => if n != "" then { src with name := pyStrip n } else src
    | none => src
  match base_url with
  | some b => if b != "" then { src with base_url := pyRstripSlash (pyStrip b) }
              else src
  | none => src

/-- Embeds `update_source_in_db(session, source_id, name=None, base_url=None)`. -/
def update_source_in_db (s : Session) (source_id : Nat)
    (name base_url : Option String) : UpdSourceRes × Session :=
  match s.current.sources.find? (fun src => src.id == source_id) with
  | none => (.errNotFound source_id, s)
  | some src =>
    let src := updatedSource src name base_url
    let cur := { s.current with
      sources := s.current.sources.map
        (fun x => if x.id == source_id then src else x) }
    match commitOrRollback s cur with
    | (true, s') => (.success source_id, s')
    | (false, s') => (.errSqlalchemy, s')

/-- Embeds `search_media_in_db(session, title=None, url=None, source_id=None)`:
the returned dictionary always has status success and carries exactly the
matching rows (possibly empty), so the embedding returns the row list. -/
def search_media_in_db (s : Session) (title url : Option String)
    (source_id : Option Nat) : List Media :=
  let q := s.current.media
  let q := match title with
    | some t => if t != "" then
        q.filter (fun m => ilike ("%" ++ pyStrip t ++ "%") m.title)
      else q
    | none => q
  let q := match url with
    | some u => if u != "" then
        q.filter (fun m => ilike ("%" ++ pyStrip u ++ "%") m.url)
      else q
    | none => q
  match source_id with
  | some sid => q.filter (fun m => m.source_id == sid)
  | none => q

/-- Embeds `search_source_in_db(session, source_name=None, source_id=None,
base_url=None)`; like media search, always a success dictionary carrying
exactly the matching rows. -/
def search_source_in_db (s : Session) (source_name : Option String)
    (source_id : Option Nat) (base_url : Option String) : List Source :=
  let q := s.current.sources
  let q := match source_name with
    | some n => if n != "" then
        q.filter (fun src => ilike ("%" ++ pyStrip n ++ "%") src.name)
      else q
    | none => q
  let q := match source_id with
    | some sid => q.filter (fun src => src.id == sid)
    | none => q
  match base_url with
  | some b => if b != "" then
      q.filter (fun src => ilike ("%" ++ pyStrip b ++ "%") src.base_url)
    else q
  | none => q

/-! ## Specification-side definitions

These two are modelled from the spec's words (not from the code), to compare
the code's `ilike`-based filters against the spec's "contains ... as a
case-insensitive substring". -/

/-- Whether `needle` is a case-insensitive prefix of `hay`. -/
def startsWithCI : List Char → List Char → Bool
  | [], _ => true
  | _ :: _, [] => false
  | c :: p, d :: s => lowerChar c == lowerChar d && startsWithCI p s

def substrCIAux (p : List Char) : List Char → Bool
  | [] => startsWithCI p []
  | c :: s => startsWithCI p (c :: s) || substrCIAux p s

/-- Modelled from the spec: `hay` contains `needle` as a case-insensitive
substring. -/
def substrCI (needle hay : String) : Bool :=
  substrCIAux needle.data hay.data

/-- A filter string using no SQL LIKE wildcard characters. -/
def wildcardFree (t : String) : Bool :=
  t.data.all fun c => !(c == '%') && !(c == '_')

/-- Python `uuid` invariant used for bookkeeping: the Media↔Album linkage of
a row, as the set of its association pairs. -/
def mediaAlbumIds (db : DB) (mid : Nat) : List Nat :=
  (db.assoc.filter (fun p => p.2 == mid)).map Prod.fst

end SoundBase

namespace SoundBase

set_option maxRecDepth 40000

/-! ## Concrete stores used by counterexamples and failing-input theorems -/

/-- One source, one media titled "Song" whose url is already normalised. -/
def c1db : DB :=
  ⟨[⟨10, "S", "https://s", 0⟩],
   [⟨1, "https://example.com/song", "Song", "h0", 10, 0⟩], [], []⟩

/-- One source, one media titled "Old". -/
def c2db : DB :=
  ⟨[⟨10, "S", "https://s", 5⟩], [⟨1, "u", "Old", "h", 10, 5⟩], [], []⟩

/-- One source, one media with id 1 (no albums). -/
def c3db : DB :=
  ⟨[⟨10, "S", "https://s", 0⟩], [⟨1, "u", "t", "h", 10, 0⟩], [], []⟩

/-- One media titled "dog". -/
def c8db : DB :=
  ⟨[⟨10, "S", "https://s", 0⟩], [⟨1, "u", "dog", "h", 10, 0⟩], [], []⟩

/-- A source whose base_url merely CONTAINS "youtube". -/
def c7db : DB :=
  ⟨[⟨1, "YT Music", "https://music.youtube.com", 0⟩], [], [], []⟩

/-- Media 5 initially a member of albums A (id 1) and B (id 2). -/
def c6db : DB :=
  ⟨[⟨10, "S", "https://s", 0⟩], [⟨5, "u", "t", "h", 10, 0⟩],
   [⟨1, "A"⟩, ⟨2, "B"⟩], [(1, 5), (2, 5)]⟩

/-- Source 1 has one dependent media; source 2 has none. -/
def c5wdb : DB :=
  ⟨[⟨1, "A", "https://a", 0⟩, ⟨2, "B", "https://b", 0⟩],
   [⟨3, "u", "t", "h", 1, 0⟩], [], []⟩

/-- A store unrelated to YouTube. -/
def c7wdb : DB :=
  ⟨[⟨5, "Radio", "https://radio.fm", 1⟩], [], [], []⟩

/-- Two media rows and one album, for exercising album creation. -/
def c3wdb : DB :=
  ⟨[⟨10, "S", "https://s", 0⟩],
   [⟨1, "u1", "t1", "h1", 10, 0⟩, ⟨2, "u2", "t2", "h2", 10, 0⟩],
   [⟨3, "Old"⟩], []⟩

/-- The spec's Source-uniqueness invariant: pairwise distinct names and
base_urls. -/
def sourcesUnique (db : DB) : Prop :=
  db.sources.Pairwise (fun a b => a.name ≠ b.name ∧ a.base_url ≠ b.base_url)

/-- The spec's referential-integrity invariant: every Media row's source_id
resolves to an existing Source row. -/
def refOK (db : DB) : Prop :=
  ∀ m ∈ db.media, ∃ src ∈ db.sources, src.id = m.source_id

/-- C1, failing input.  `update_media_in_db` is called with a url carrying a
trailing slash.  The stored url is the normalised
"https://example.com/song", but line 332 of db_utils.py
(`media.hash = sha256_hash(url)`) overwrites the hash the `validate_url`
hook just computed with the digest of the RAW argument
"https://example.com/song/", so the committed row violates
`m.hash = digest(m.url)`. -/
theorem c1_update_media_hash_divergence :
    (update_media_in_db (Session.clean c1db) 1 none
        (some "https://example.com/song/") none none).1 = .success 1 ∧
    (update_media_in_db (Session.clean c1db) 1 none
        (some "https://example.com/song/") none none).2.committed.media =
      [⟨1, "https://example.com/song", "Song",
        sha256_hash "https://example.com/song/", 10, 0⟩] ∧
    sha256_hash "https://example.com/song/" ≠
      sha256_hash "https://example.com/song" := by
  refine ⟨by decide, by decide, by decide⟩

/-- C2, failing input.  `update_media_in_db` is called supplying both a new
title and an album id that does not resolve.  The call reports an error, but
the title mutation has already been applied to the session-held row and the
error path returns WITHOUT `session.rollback()` (db_utils.py line 342), so
the change stays pending in the shared module-level session; the very next
successful commit on that session (here an unrelated `add_source_to_db`)
persists the partial update. -/
theorem c2_update_media_no_rollback :
    (update_media_in_db (Session.clean c2db) 1 (some "New") none none
        (some [99])).1 = .errAlbumsNotFound [99] ∧
    (update_media_in_db (Session.clean c2db) 1 (some "New") none none
        (some [99])).2.current.media.map Media.title = ["New"] ∧
    (update_media_in_db (Session.clean c2db) 1 (some "New") none none
        (some [99])).2.committed = c2db ∧
    (add_source_to_db
        (update_media_in_db (Session.clean c2db) 1 (some "New") none none
          (some [99])).2 "T" "https://t" 11 6).1.status = .success ∧
    (add_source_to_db
        (update_media_in_db (Session.clean c2db) 1 (some "New") none none
          (some [99])).2 "T" "https://t" 11 6).2.committed.media.map
        Media.title = ["New"] := by
  refine ⟨by decide, by decide, by decide, by decide, by decide⟩

/-- C10, failing input.  Both delete operations perform the
`UUID(arg)` conversion before entering any try/except, so a non-UUID string
escapes as an uncaught ValueError instead of producing the structured
`{status: error}` outcome the spec's contract requires. -/
theorem c10_delete_raises_on_bad_uuid (s : Session) :
    delete_media_from_db s (.inl "not-a-uuid") =
      .error "ValueError: badly formed hexadecimal UUID string" ∧
    delete_source_from_db s (.inl "not-a-uuid") =
      .error "ValueError: badly formed hexadecimal UUID string" := by
  exact ⟨rfl, rfl⟩

/-- C4, counterexample.  `add_media_to_db` performs no check that source_id
resolves (and SQLite foreign keys are unenforced — no PRAGMA), so starting
from an EMPTY store it happily commits a Media row whose source_id 42
references no Source. -/
theorem c4_counterexample_dangling_source :
    (add_media_to_db (Session.clean DB.empty) "u" "t" 42 none 1 0).1.status =
      .success ∧
    (add_media_to_db (Session.clean DB.empty) "u" "t" 42 none 1
        0).2.committed.media.map Media.source_id = [42] ∧
    (add_media_to_db (Session.clean DB.empty) "u" "t" 42 none 1
        0).2.committed.sources = [] := by
  refine ⟨by decide, by decide, by decide⟩

/-- C6, counterexample.  Supplying `album_ids=[]` — a list all of whose ids
(vacuously) resolve — does NOT replace the membership with the empty set:
`if album_ids:` is falsy on an empty list, so the call succeeds and media 5
keeps its membership {A, B} instead of ending with membership {}. -/
theorem c6_counterexample_empty_album_ids :
    (update_media_in_db (Session.clean c6db) 5 none none none
        (some [])).1 = .success 5 ∧
    (update_media_in_db (Session.clean c6db) 5 none none none
        (some [])).2.committed.assoc = [(1, 5), (2, 5)] := by
  refine ⟨by decide, by decide⟩

/-- C3, counterexample.  `media_ids` lists the SAME existing media id twice:
every id in the list resolves, yet `add_album_to_db` compares the number of
DISTINCT resolved rows (1) with `len(media_uuids)` (2), refuses the
creation, and reports the empty set of "missing" ids. -/
theorem c3_counterexample_duplicate_ids :
    (add_album_to_db (Session.clean c3db) "A"
        (some ["00000000-0000-0000-0000-000000000001",
               "00000000-0000-0000-0000-000000000001"]) 7).1 =
      .errMediaNotFound [] ∧
    (add_album_to_db (Session.clean c3db) "A"
        (some ["00000000-0000-0000-0000-000000000001",
               "00000000-0000-0000-0000-000000000001"]) 7).2 =
      Session.clean c3db := by
  refine ⟨by decide, by decide⟩

/-- C7, counterexample.  The store starts with NO source whose base_url is
"https://www.youtube.com" (only "https://music.youtube.com").  The add
succeeds and stores "https://www.youtube.com", but the subsequent
`search_source_in_db(base_url="youtube")` substring filter returns BOTH
sources, not exactly the created one. -/
theorem c7_counterexample_substring_collision :
    (add_source_to_db (Session.clean c7db) "YouTube"
        "https://www.youtube.com/" 2 7).1 =
      .success 2 "YouTube" "https://www.youtube.com" ∧
    search_source_in_db
        (add_source_to_db (Session.clean c7db) "YouTube"
          "https://www.youtube.com/" 2 7).2 none none (some "youtube") =
      [⟨1, "YT Music", "https://music.youtube.com", 0⟩,
       ⟨2, "YouTube", "https://www.youtube.com", 7⟩] := by
  refine ⟨by decide, by decide⟩

/-- C8, counterexample.  With the title filter "_" the LIKE pattern `%_%`
matches any non-empty title, so the media titled "dog" is returned even
though "dog" does not contain "_" as a substring (case-insensitively or
otherwise). -/
theorem c8_counterexample_wildcard :
    search_media_in_db (Session.clean c8db) (some "_") none none =
      [⟨1, "u", "dog", "h", 10, 0⟩] ∧
    substrCI "_" "dog" = false := by
  refine ⟨by decide, by decide⟩

/-! ## LIKE-matching theory

For a wildcard-free needle `t`, the `ilike("%t%")` filter used by the search
operations coincides with the spec's case-insensitive-substring relation. -/

theorem likeAux_eq_of_lt (f : Nat) : ∀ (g : Nat) (p s : List Char),
    p.length + s.length < f → p.length + s.length < g →
    likeAux f p s = likeAux g p s := by
  induction f with
  | zero => intro g p s h _; exact absurd h (Nat.not_lt_zero _)
  | succ f ih =>
    intro g p s hf hg
    cases g with
    | zero => exact absurd hg (Nat.not_lt_zero _)
    | succ g =>
      cases p with
      | nil => rfl
      | cons p ps =>
        simp only [likeAux]
        by_cases hp : p = '%'
        · subst hp
          simp only [if_pos rfl]
          have h1 : likeAux f ps s = likeAux g ps s := by
            apply ih <;> simp only [List.length_cons] at hf hg <;> omega
          cases s with
          | nil => simp [h1]
          | cons c s' =>
            have h2 : likeAux f ('%' :: ps) s' = likeAux g ('%' :: ps) s' := by
              apply ih <;> simp only [List.length_cons] at hf hg ⊢ <;> omega
            simp [h1, h2]
        · simp only [if_neg hp]
          cases s with
          | nil => rfl
          | cons c s' =>
            have h1 : likeAux f ps s' = likeAux g ps s' := by
              apply ih <;> simp only [List.length_cons] at hf hg ⊢ <;> omega
            by_cases hu : p = '_'
            · simp [if_pos hu, h1]
            · simp [if_neg hu, h1]

theorem likeAux_big (p s : List Char) (f : Nat) (h : p.length + s.length < f) :
    likeAux f p s = likeMatch p s :=
  likeAux_eq_of_lt f (p.length + s.length + 1) p s h (Nat.lt_succ_self _)

theorem likeMatch_pct_nil (ps : List Char) :
    likeMatch ('%' :: ps) [] = likeMatch ps [] := by
  have h1 : likeMatch ('%' :: ps) [] =
      (likeAux (('%' :: ps).length + [].length) ps [] || false) := rfl
  rw [h1,
    likeAux_big _ _ _ (by simp only [List.length_cons, List.length_nil]; omega)]
  simp

theorem likeMatch_pct_cons (ps : List Char) (c : Char) (s' : List Char) :
    likeMatch ('%' :: ps) (c :: s') =
      (likeMatch ps (c :: s') || likeMatch ('%' :: ps) s') := by
  have h1 : likeMatch ('%' :: ps) (c :: s') =
      (likeAux (('%' :: ps).length + (c :: s').length) ps (c :: s') ||
       likeAux (('%' :: ps).length + (c :: s').length) ('%' :: ps) s') := rfl
  rw [h1, likeAux_big _ _ _ (by simp only [List.length_cons]; omega),
      likeAux_big _ _ _ (by simp only [List.length_cons]; omega)]

theorem likeMatch_lit_nil (p : Char) (ps : List Char) (h : p ≠ '%') :
    likeMatch (p :: ps) [] = false := by
  show likeAux _ _ _ = _
  simp [likeAux, if_neg h]

theorem likeMatch_usc (ps : List Char) (c : Char) (s' : List Char) :
    likeMatch ('_' :: ps) (c :: s') = likeMatch ps s' := by
  have h0 : ('_' : Char) ≠ '%' := by decide
  show likeAux _ _ _ = _
  simp only [likeAux, if_neg h0, if_pos rfl]
  exact likeAux_big _ _ _ (by simp only [List.length_cons]; omega)

theorem likeMatch_lit (p : Char) (ps : List Char) (c : Char) (s' : List Char)
    (h1 : p ≠ '%') (h2 : p ≠ '_') :
    likeMatch (p :: ps) (c :: s') =
      (lowerChar p == lowerChar c && likeMatch ps s') := by
  show likeAux _ _ _ = _
  simp only [likeAux, if_neg h1, if_neg h2]
  rw [likeAux_big _ _ _ (by simp only [List.length_cons]; omega)]

theorem likeMatch_pct_singleton (s : List Char) : likeMatch ['%'] s = true := by
  induction s with
  | nil => decide
  | cons c s' ih => rw [likeMatch_pct_cons, ih]; simp

theorem likeMatch_append_pct (p : List Char)
    (hw : p.all (fun c => !(c == '%') && !(c == '_')) = true) :
    ∀ s, likeMatch (p ++ ['%']) s = startsWithCI p s := by
  induction p with
  | nil => intro s; simpa [startsWithCI] using likeMatch_pct_singleton s
  | cons q p ih =>
    intro s
    simp only [List.all_cons, Bool.and_eq_true, bne_iff_ne, ne_eq] at hw
    have hq1 : q ≠ '%' := by
      intro h; subst h; simp at hw
    have hq2 : q ≠ '_' := by
      intro h; subst h; simp at hw
    cases s with
    | nil => rw [List.cons_append, likeMatch_lit_nil _ _ hq1]; rfl
    | cons c s' =>
      rw [List.cons_append, likeMatch_lit _ _ _ _ hq1 hq2, ih (by simp [hw.2])]
      rfl

theorem likeMatch_substr (p : List Char)
    (hw : p.all (fun c => !(c == '%') && !(c == '_')) = true) (s : List Char) :
    likeMatch ('%' :: (p ++ ['%'])) s = substrCIAux p s := by
  induction s with
  | nil =>
    rw [likeMatch_pct_nil, likeMatch_append_pct p hw]
    rfl
  | cons c s' ih =>
    rw [likeMatch_pct_cons, likeMatch_append_pct p hw, ih]
    rfl

/-- The search filter `ilike("%" + t + "%")` is exactly case-insensitive
substring containment when `t` has no wildcard characters. -/
theorem ilike_substr (t x : String) (hw : wildcardFree t = true) :
    ilike ("%" ++ t ++ "%") x = substrCI t x := by
  have hd : ("%" ++ t ++ "%").data = '%' :: (t.data ++ ['%']) := rfl
  unfold ilike substrCI
  rw [hd, likeMatch_substr t.data hw x.data]

/-! ## Uniqueness-constraint helper lemmas -/

theorem nodupBy_iff (f : α → Nat) (l : List α) :
    nodupBy f l = true ↔ l.Pairwise (fun a b => f a ≠ f b) := by
  induction l with
  | nil => simp [nodupBy]
  | cons x xs ih =>
    simp only [nodupBy, Bool.and_eq_true, Bool.not_eq_true', List.any_eq_false,
      List.pairwise_cons, ih, beq_iff_eq, ne_eq]
    constructor
    · rintro ⟨h1, h2⟩
      exact ⟨fun y hy => fun hxy => h1 y hy hxy.symm, h2⟩
    · rintro ⟨h1, h2⟩
      exact ⟨fun y hy => fun hxy => h1 y hy hxy.symm, h2⟩

theorem nodupByS_iff (f : α → String) (l : List α) :
    nodupByS f l = true ↔ l.Pairwise (fun a b => f a ≠ f b) := by
  induction l with
  | nil => simp [nodupByS]
  | cons x xs ih =>
    simp only [nodupByS, Bool.and_eq_true, Bool.not_eq_true', List.any_eq_false,
      List.pairwise_cons, ih, beq_iff_eq, ne_eq]
    constructor
    · rintro ⟨h1, h2⟩
      exact ⟨fun y hy => fun hxy => h1 y hy hxy.symm, h2⟩
    · rintro ⟨h1, h2⟩
      exact ⟨fun y hy => fun hxy => h1 y hy hxy.symm, h2⟩

theorem nodupBy_filter (f : α → Nat) (l : List α) (p : α → Bool)
    (h : nodupBy f l = true) : nodupBy f (l.filter p) = true := by
  rw [nodupBy_iff] at h ⊢
  exact h.sublist (List.filter_sublist l)

theorem nodupByS_filter (f : α → String) (l : List α) (p : α → Bool)
    (h : nodupByS f l = true) : nodupByS f (l.filter p) = true := by
  rw [nodupByS_iff] at h ⊢
  exact h.sublist (List.filter_sublist l)

theorem mem_dedupAux (x : Nat) :
    ∀ (l seen : List Nat), x ∈ dedupAux seen l ↔ x ∈ l ∧ ¬ x ∈ seen := by
  intro l
  induction l with
  | nil => intro seen; simp [dedupAux]
  | cons y ys ih =>
    intro seen
    simp only [dedupAux]
    by_cases hy : seen.contains y = true
    · rw [if_pos hy, ih]
      have hys : y ∈ seen := List.mem_of_elem_eq_true hy
      constructor
      · rintro ⟨h1, h2⟩
        exact ⟨List.mem_cons_of_mem _ h1, h2⟩
      · rintro ⟨h1, h2⟩
        rcases List.mem_cons.mp h1 with hxy | h1
        · subst hxy
          exact absurd hys h2
        · exact ⟨h1, h2⟩
    · rw [if_neg hy]
      have hyns : ¬ y ∈ seen := fun h => hy (List.elem_eq_true_of_mem h)
      rw [List.mem_cons, ih]
      constructor
      · rintro (hxy | ⟨h1, h2⟩)
        · subst hxy
          exact ⟨List.mem_cons_self _ _, hyns⟩
        · rw [List.mem_cons] at h2
          push_neg at h2
          exact ⟨List.mem_cons_of_mem _ h1, h2.2⟩
      · rintro ⟨hor, h2⟩
        by_cases hxy : x = y
        · exact Or.inl hxy
        · rcases List.mem_cons.mp hor with hxy' | h1
          · exact absurd hxy' hxy
          · refine Or.inr ⟨h1, ?_⟩
            rw [List.mem_cons]
            push_neg
            exact ⟨hxy, h2⟩

theorem mem_setDiff (x : Nat) (xs ys : List Nat) :
    x ∈ setDiff xs ys ↔ x ∈ xs ∧ ¬ x ∈ ys := by
  unfold setDiff
  rw [mem_dedupAux]
  have hce : ys.contains x = List.elem x ys := rfl
  constructor
  · rintro ⟨h1, _⟩
    have := List.mem_filter.mp h1
    refine ⟨this.1, fun hx => ?_⟩
    have hb := this.2
    rw [Bool.not_eq_true', hce] at hb
    rw [List.elem_eq_true_of_mem hx] at hb
    cases hb
  · rintro ⟨h1, h2⟩
    refine ⟨List.mem_filter.mpr ⟨h1, ?_⟩, List.not_mem_nil x⟩
    rw [Bool.not_eq_true', hce]
    by_contra hb
    rw [Bool.not_eq_false] at hb
    exact h2 (List.mem_of_elem_eq_true hb)

/-- Two lists of naturals, the first duplicate-free and contained in the
second, with the second no longer than the first, have the same members. -/
theorem subset_mem_of_length_le (l1 l2 : List Nat) (h1 : l1.Nodup)
    (hsub : ∀ x ∈ l1, x ∈ l2) (hlen : l2.length ≤ l1.length) :
    ∀ x ∈ l2, x ∈ l1 := by
  intro x hx
  have hs : l1.toFinset ⊆ l2.toFinset := by
    intro a ha
    exact List.mem_toFinset.mpr (hsub a (List.mem_toFinset.mp ha))
  have hc1 : l1.toFinset.card = l1.length := List.toFinset_card_of_nodup h1
  have hc2 : l2.toFinset.card ≤ l2.length := List.toFinset_card_le l2
  have heq : l1.toFinset = l2.toFinset :=
    Finset.eq_of_subset_of_card_le hs (by omega)
  have := List.mem_toFinset.mpr hx
  rw [← heq] at this
  exact List.mem_toFinset.mp this

theorem substrCIAux_nil (hay : List Char) : substrCIAux [] hay = true := by
  induction hay with
  | nil => rfl
  | cons c s ih => simp [substrCIAux, startsWithCI]

/-- C8 (amended): with no filters, `search_media_in_db` returns the whole
Media table in row order — which is added_on-ascending whenever the stored
rows carry nondecreasing timestamps — and with a wildcard-free title filter
it returns exactly the Media whose title contains the stripped filter as a
case-insensitive substring. -/
theorem c8_search_media_amended (s : Session) (t : String) :
    (search_media_in_db s none none none = s.current.media) ∧
    (s.current.media.Pairwise (fun a b => a.added_on ≤ b.added_on) →
      (search_media_in_db s none none none).Pairwise
        (fun a b => a.added_on ≤ b.added_on)) ∧
    (wildcardFree (pyStrip t) = true →
      ∀ m, m ∈ search_media_in_db s (some t) none none ↔
        m ∈ s.current.media ∧ substrCI (pyStrip t) m.title = true) := by
  refine ⟨rfl, fun h => h, fun hw m => ?_⟩
  unfold search_media_in_db
  by_cases ht : t = ""
  · subst ht
    simp only [if_neg (by decide : ¬(("" : String) != "") = true)]
    have : substrCI (pyStrip "") m.title = true := substrCIAux_nil _
    simp [this]
  · have htb : (t != "") = true := by
      simp [bne_iff_ne, ht]
    simp only [if_pos htb]
    rw [List.mem_filter, ilike_substr _ _ hw]

theorem c8_witness :
    c8db.media.Pairwise (fun a b => a.added_on ≤ b.added_on) ∧
    (search_media_in_db (Session.clean c8db) none none none).Pairwise
      (fun a b => a.added_on ≤ b.added_on) ∧
    wildcardFree (pyStrip "OG") = true ∧
    (∀ m, m ∈ search_media_in_db (Session.clean c8db) (some "OG") none none ↔
      m ∈ c8db.media ∧ substrCI (pyStrip "OG") m.title = true) := by
  have h1 : c8db.media.Pairwise (fun a b => a.added_on ≤ b.added_on) := by decide
  exact ⟨h1, (c8_search_media_amended (Session.clean c8db) "OG").2.1 h1, by decide,
    (c8_search_media_amended (Session.clean c8db) "OG").2.2 (by decide)⟩

/-! ## Source-uniqueness (C9) development -/

theorem sourcesUnique_of_dbOK (db : DB) (h : dbOK db = true) :
    sourcesUnique db := by
  simp only [dbOK, Bool.and_eq_true] at h
  obtain ⟨⟨⟨⟨⟨⟨⟨_, o2⟩, o3⟩, _⟩, _⟩, _⟩, _⟩, _⟩ := h
  exact ((nodupByS_iff _ _).mp o2).and ((nodupByS_iff _ _).mp o3)

theorem updatedSource_id (src : Source) (name base_url : Option String) :
    (updatedSource src name base_url).id = src.id := by
  unfold updatedSource
  cases name <;> cases base_url <;> dsimp only [] <;> (repeat' split) <;> rfl

theorem updatedSource_name (src : Source) (n : String) (hne : n ≠ "")
    (base_url : Option String) :
    (updatedSource src (some n) base_url).name = pyStrip n := by
  unfold updatedSource
  have hb : (n != "") = true := bne_iff_ne.mpr hne
  cases base_url <;> simp only [hb, if_true] <;> (repeat' split) <;> rfl

theorem updatedSource_base_url (src : Source) (name : Option String)
    (b : String) (hne : b ≠ "") :
    (updatedSource src name (some b)).base_url = pyRstripSlash (pyStrip b) := by
  unfold updatedSource
  have hb : (b != "") = true := bne_iff_ne.mpr hne
  cases name <;> simp only [hb, if_true] <;> (repeat' split) <;> rfl

theorem add_source_session (s : Session) (name base_url : String)
    (newId now : Nat) :
    (add_source_to_db s name base_url newId now).2 = s ∨
    (add_source_to_db s name base_url newId now).2 =
      ⟨s.committed, s.committed⟩ ∨
    (∃ cur, (add_source_to_db s name base_url newId now).2 =
        Session.clean cur ∧ dbOK cur = true ∧
      cur.sources = s.current.sources ++
        [⟨newId, pyStrip name, pyRstripSlash (pyStrip base_url), now⟩]) := by
  unfold add_source_to_db
  cases hf : s.current.sources.find?
      (fun src => src.base_url == pyRstripSlash (pyStrip base_url)) with
  | some _ => simp only [hf]; left; trivial
  | none =>
    simp only [hf, commitOrRollback]
    split
    next s' h =>
      split at h
      next hc =>
        right; right
        injection h with _ h2
        subst h2
        exact ⟨_, rfl, hc, rfl⟩
      next hc =>
        injection h with h1 _
        exact absurd h1 (by decide)
    next s' h =>
      split at h
      next hc =>
        injection h with h1 _
        exact absurd h1 (by decide)
      next hc =>
        right; left
        injection h with _ h2
        subst h2
        rfl

theorem update_source_session (s : Session) (source_id : Nat)
    (name base_url : Option String) :
    (update_source_in_db s source_id name base_url).2 = s ∨
    (update_source_in_db s source_id name base_url).2 =
      ⟨s.committed, s.committed⟩ ∨
    ∃ cur, (update_source_in_db s source_id name base_url).2 =
        Session.clean cur ∧ dbOK cur = true := by
  unfold update_source_in_db
  cases hf : s.current.sources.find? (fun src => src.id == source_id) with
  | none => simp only [hf]; left; trivial
  | some src =>
    simp only [hf, commitOrRollback]
    split
    next s' h =>
      split at h
      next hc =>
        right; right
        injection h with _ h2
        subst h2
        exact ⟨_, rfl, hc⟩
      next hc =>
        injection h with h1 _
        exact absurd h1 (by decide)
    next s' h =>
      split at h
      next hc =>
        injection h with h1 _
        exact absurd h1 (by decide)
      next hc =>
        right; left
        injection h with _ h2
        subst h2
        rfl

theorem mapped_collision (l : List Source) (sid : Nat) (src2 src other : Source)
    (hsm : src ∈ l) (hom : other ∈ l)
    (hsid : src.id = sid) (hoid : other.id ≠ sid) (hid2 : src2.id = sid)
    (hpair : (l.map fun x => if x.id == sid then src2 else x).Pairwise
      (fun a b => a.name ≠ b.name ∧ a.base_url ≠ b.base_url))
    (hcol : src2.name = other.name ∨ src2.base_url = other.base_url) :
    False := by
  have hgo : (fun x => if x.id == sid then src2 else x) other = other := by
    simp only [beq_eq_false_iff_ne.mpr hoid, if_false, Bool.false_eq_true]
  have hgs : (fun x => if x.id == sid then src2 else x) src = src2 := by
    simp only [hsid, beq_self_eq_true, if_true]
  have hmo : other ∈ l.map (fun x => if x.id == sid then src2 else x) :=
    List.mem_map.mpr ⟨other, hom, hgo⟩
  have hms : src2 ∈ l.map (fun x => if x.id == sid then src2 else x) :=
    List.mem_map.mpr ⟨src, hsm, hgs⟩
  have hneq : src2 ≠ other := fun he => hoid (by rw [← he, hid2])
  rcases hcol with hc | hc
  · have hnod : ((l.map fun x => if x.id == sid then src2 else x).map
        Source.name).Nodup :=
      (List.pairwise_map).mpr (hpair.imp fun h => h.1)
    exact hneq (List.inj_on_of_nodup_map hnod hms hmo hc)
  · have hnod : ((l.map fun x => if x.id == sid then src2 else x).map
        Source.base_url).Nodup :=
      (List.pairwise_map).mpr (hpair.imp fun h => h.2)
    exact hneq (List.inj_on_of_nodup_map hnod hms hmo hc)

/-- C9: Source-name and base_url uniqueness is preserved by every
`add_source_to_db` and `update_source_in_db` call, and an attempt to create
or rename a Source to an existing name or base_url does not succeed. -/
theorem c9_source_uniqueness (s : Session)
    (hcur : sourcesUnique s.current) (hcom : sourcesUnique s.committed)
    (name base_url : String) (newId now source_id : Nat)
    (uname uurl : Option String) :
    (sourcesUnique (add_source_to_db s name base_url newId now).2.current ∧
     sourcesUnique (add_source_to_db s name base_url newId now).2.committed) ∧
    (sourcesUnique (update_source_in_db s source_id uname uurl).2.current ∧
     sourcesUnique (update_source_in_db s source_id uname uurl).2.committed) ∧
    ((∃ src ∈ s.current.sources, src.base_url = normUrl base_url ∨
        src.name = pyStrip name) →
      (add_source_to_db s name base_url newId now).1.status = .error) ∧
    (∀ src, s.current.sources.find? (fun x => x.id == source_id) = some src →
      (∃ other ∈ s.current.sources, other.id ≠ src.id ∧
        ((∃ n, uname = some n ∧ n ≠ "" ∧ other.name = pyStrip n) ∨
         (∃ b, uurl = some b ∧ b ≠ "" ∧ other.base_url = normUrl b))) →
      (update_source_in_db s source_id uname uurl).1.status = .error) := by
  refine ⟨?_, ?_, ?_, ?_⟩
  · rcases add_source_session s name base_url newId now with h | h | ⟨cur, h, hok, _⟩
    · rw [h]; exact ⟨hcur, hcom⟩
    · rw [h]; exact ⟨hcom, hcom⟩
    · rw [h]; exact ⟨sourcesUnique_of_dbOK cur hok, sourcesUnique_of_dbOK cur hok⟩
  · rcases update_source_session s source_id uname uurl with h | h | ⟨cur, h, hok⟩
    · rw [h]; exact ⟨hcur, hcom⟩
    · rw [h]; exact ⟨hcom, hcom⟩
    · rw [h]; exact ⟨sourcesUnique_of_dbOK cur hok, sourcesUnique_of_dbOK cur hok⟩
  · rintro ⟨src, hsrc, hcol⟩
    unfold add_source_to_db
    cases hf : s.current.sources.find?
        (fun x => x.base_url == pyRstripSlash (pyStrip base_url)) with
    | some _ => simp only [hf]; rfl
    | none =>
      rcases hcol with hbu | hnm
      · have := List.find?_eq_none.mp hf src hsrc
        exact absurd (beq_iff_eq.mpr hbu) this
      · simp only [hf, commitOrRollback]
        split
        next s' h =>
          split at h
          next hok =>
            exfalso
            have hsu := sourcesUnique_of_dbOK _ hok
            unfold sourcesUnique at hsu
            rw [List.pairwise_append] at hsu
            exact (hsu.2.2 src hsrc _ (List.mem_singleton.mpr rfl)).1 hnm
          next hok =>
            injection h with h1 _
            exact absurd h1 (by decide)
        next s' h => rfl
  · rintro src hfind ⟨other, hother, hne, hcol⟩
    have hp := List.find?_some hfind
    have hsrcid : src.id = source_id := beq_iff_eq.mp hp
    have hsrcmem : src ∈ s.current.sources := List.mem_of_find?_eq_some hfind
    have hoid : other.id ≠ source_id := by rw [← hsrcid]; exact hne
    unfold update_source_in_db
    simp only [hfind, commitOrRollback]
    split
    next s' h =>
      split at h
      next hok =>
        exfalso
        have hsu := sourcesUnique_of_dbOK _ hok
        unfold sourcesUnique at hsu
        refine mapped_collision s.current.sources source_id
          (updatedSource src uname uurl) src other hsrcmem hother hsrcid hoid
          (by rw [updatedSource_id]; exact hsrcid) hsu ?_
        rcases hcol with ⟨n, hn, hne'', hcoln⟩ | ⟨b, hb, hne'', hcolb⟩
        · subst hn
          left
          rw [updatedSource_name src n hne'']
          exact hcoln.symm
        · subst hb
          right
          rw [updatedSource_base_url src uname b hne'']
          exact hcolb.symm
      next hok =>
        injection h with h1 _
        exact absurd h1 (by decide)
    next s' h => rfl

theorem c9_witness :
    sourcesUnique c5wdb ∧
    (sourcesUnique (add_source_to_db (Session.clean c5wdb) "A" "https://c/"
        9 2).2.current ∧
     sourcesUnique (add_source_to_db (Session.clean c5wdb) "A" "https://c/"
        9 2).2.committed) ∧
    (sourcesUnique (update_source_in_db (Session.clean c5wdb) 1 (some "B")
        none).2.current ∧
     sourcesUnique (update_source_in_db (Session.clean c5wdb) 1 (some "B")
        none).2.committed) ∧
    (add_source_to_db (Session.clean c5wdb) "A" "https://c/" 9 2).1.status =
      .error ∧
    (update_source_in_db (Session.clean c5wdb) 1 (some "B") none).1.status =
      .error := by
  have hu : sourcesUnique c5wdb := by
    unfold sourcesUnique
    decide
  have h := c9_source_uniqueness (Session.clean c5wdb) hu hu
      "A" "https://c/" 9 2 1 (some "B") none
  refine ⟨hu, h.1, h.2.1, ?_, ?_⟩
  · exact h.2.2.1 ⟨⟨1, "A", "https://a", 0⟩, by decide, Or.inr (by decide)⟩
  · exact h.2.2.2 ⟨1, "A", "https://a", 0⟩ (by decide)
      ⟨⟨2, "B", "https://b", 0⟩, by decide, by decide,
        Or.inl ⟨"B", rfl, by decide, by decide⟩⟩

/-! ## Delete-source guard (C5) -/

theorem dbOK_filter_sources (db : DB) (p : Source → Bool)
    (h : dbOK db = true) :
    dbOK { db with sources := db.sources.filter p } = true := by
  simp only [dbOK, Bool.and_eq_true] at h ⊢
  obtain ⟨⟨⟨⟨⟨⟨⟨o1, o2⟩, o3⟩, o4⟩, o5⟩, o6⟩, o7⟩, o8⟩ := h
  exact ⟨⟨⟨⟨⟨⟨⟨nodupBy_filter _ _ _ o1, nodupByS_filter _ _ _ o2⟩,
    nodupByS_filter _ _ _ o3⟩, o4⟩, o5⟩, o6⟩, o7⟩, o8⟩

/-- C5: deleting a Source that still has dependent Media returns the
conflict error carrying the dependent-media count and leaves the session
untouched; with zero dependents the deletion succeeds and removes exactly
that Source row. -/
theorem c5_delete_source_guard (s : Session) (sid : Nat) (src : Source)
    (hfind : s.current.sources.find? (fun x => x.id == sid) = some src) :
    (0 < (s.current.media.filter (fun m => m.source_id == sid)).length →
      delete_source_from_db s (.inr sid) = .ok (.errConflict src.name
        ((s.current.media.filter (fun m => m.source_id == sid)).length), s)) ∧
    ((s.current.media.filter (fun m => m.source_id == sid)).length = 0 →
      dbOK s.current = true →
      delete_source_from_db s (.inr sid) = .ok (.success sid,
        Session.clean { s.current with
          sources := s.current.sources.filter (fun x => x.id != sid) })) := by
  constructor
  · intro hcnt
    unfold delete_source_from_db resolveIdArg
    show (match s.current.sources.find? (fun x => x.id == sid) with
      | some source => _
      | none => _) = _
    rw [hfind]
    simp only [if_pos hcnt]
  · intro hz hok
    unfold delete_source_from_db resolveIdArg
    show (match s.current.sources.find? (fun x => x.id == sid) with
      | some source => _
      | none => _) = _
    rw [hfind]
    have hnlt : ¬ 0 < (s.current.media.filter
        (fun m => m.source_id == sid)).length := by
      rw [hz]
      omega
    simp only [if_neg hnlt, commitOrRollback,
      if_pos (dbOK_filter_sources s.current (fun x => x.id != sid) hok)]
    rfl

theorem c5_witness :
    (0 < ((Session.clean c5wdb).current.media.filter
        (fun m => m.source_id == 1)).length) ∧
    delete_source_from_db (Session.clean c5wdb) (.inr 1) =
      .ok (.errConflict "A" 1, Session.clean c5wdb) ∧
    delete_source_from_db (Session.clean c5wdb) (.inr 2) =
      .ok (.success 2, Session.clean
        { c5wdb with sources := [⟨1, "A", "https://a", 0⟩] }) := by
  refine ⟨by decide, ?_, ?_⟩
  · have h := (c5_delete_source_guard (Session.clean c5wdb) 1
      ⟨1, "A", "https://a", 0⟩ (by decide)).1 (by decide)
    exact h
  · have h := (c5_delete_source_guard (Session.clean c5wdb) 2
      ⟨2, "B", "https://b", 0⟩ (by decide)).2 (by decide) (by decide)
    rw [h]
    rfl

/-! ## Referential integrity (C4) -/

theorem add_media_session (s : Session) (url title : String) (source_id : Nat)
    (album_ids : Option (List String)) (newId now : Nat) :
    (add_media_to_db s url title source_id album_ids newId now).2 = s ∨
    (add_media_to_db s url title source_id album_ids newId now).2 =
      ⟨s.committed, s.committed⟩ ∨
    (∃ cur, (add_media_to_db s url title source_id album_ids newId now).2 =
        Session.clean cur ∧ dbOK cur = true ∧
      cur.sources = s.current.sources ∧
      cur.media = s.current.media ++
        [⟨newId, pyRstripSlash (pyStrip url), pyStrip title,
          sha256_hash (pyRstripSlash (pyStrip url)), source_id, now⟩]) := by
  unfold add_media_to_db
  cases hp : (match album_ids with
    | none => some []
    | some l => if l.isEmpty then some [] else l.mapM parseUUID) with
  | none => simp only [hp]; left; trivial
  | some uuids =>
    simp only [hp]
    cases hf : s.current.media.find?
        (fun m => m.url == pyRstripSlash (pyStrip url)) with
    | some _ => simp only [hf]; left; trivial
    | none =>
      simp only [hf, commitOrRollback]
      split
      · split
        next s' h =>
          split at h
          next hok =>
            right; right
            injection h with _ h2
            subst h2
            exact ⟨_, rfl, hok, rfl, rfl⟩
          next hok =>
            injection h with h1 _
            exact absurd h1 (by decide)
        next s' h =>
          split at h
          next hok =>
            injection h with h1 _
            exact absurd h1 (by decide)
          next hok =>
            right; left
            injection h with _ h2
            subst h2
            rfl
      · split
        · left; trivial
        · split
          next s' h =>
            split at h
            next hok =>
              right; right
              injection h with _ h2
              subst h2
              exact ⟨_, rfl, hok, rfl, rfl⟩
            next hok =>
              injection h with h1 _
              exact absurd h1 (by decide)
          next s' h =>
            split at h
            next hok =>
              injection h with h1 _
              exact absurd h1 (by decide)
            next hok =>
              right; left
              injection h with _ h2
              subst h2
              rfl



/-- C4 (amended): the referential invariant "every Media.source_id resolves"
is preserved by `add_media_to_db` whenever the supplied source_id resolves
(the function itself never checks it), and by `delete_source_from_db`
unconditionally (its dependent-media guard refuses to delete a Source that
is still referenced). -/
theorem c4_referential_integrity_amended (s : Session)
    (url title : String) (source_id : Nat) (album_ids : Option (List String))
    (newId now : Nat) (arg : Sum String Nat)
    (hc : refOK s.current) (hm : refOK s.committed) :
    ((∃ src ∈ s.current.sources, src.id = source_id) →
      refOK (add_media_to_db s url title source_id album_ids
        newId now).2.current ∧
      refOK (add_media_to_db s url title source_id album_ids
        newId now).2.committed) ∧
    (∀ res s', delete_source_from_db s arg = .ok (res, s') →
      refOK s'.current ∧ refOK s'.committed) := by
  constructor
  · rintro ⟨src0, hsrc0, hid0⟩
    rcases add_media_session s url title source_id album_ids newId now with
      h | h | ⟨cur, h, _, hsrcs, hmed⟩
    · rw [h]; exact ⟨hc, hm⟩
    · rw [h]; exact ⟨hm, hm⟩
    · rw [h]
      have hcur : refOK cur := by
        intro m hmem
        rw [hmed] at hmem
        rcases List.mem_append.mp hmem with hmem | hmem
        · obtain ⟨src, hs, hid⟩ := hc m hmem
          exact ⟨src, by rw [hsrcs]; exact hs, hid⟩
        · rcases List.mem_singleton.mp hmem with rfl
          exact ⟨src0, by rw [hsrcs]; exact hsrc0, hid0⟩
      exact ⟨hcur, hcur⟩
  · intro res s' hdel
    unfold delete_source_from_db at hdel
    cases hr : resolveIdArg arg with
    | error e =>
      rw [hr] at hdel
      exact Except.noConfusion hdel
    | ok sid =>
      rw [hr] at hdel
      cases hf : s.current.sources.find? (fun x => x.id == sid) with
      | none =>
        simp only [hf, Except.ok.injEq, Prod.mk.injEq] at hdel
        obtain ⟨h1, h2⟩ := hdel
        subst h2
        exact ⟨hc, hm⟩
      | some src =>
        simp only [hf] at hdel
        split at hdel
        next hcnt =>
          simp only [Except.ok.injEq, Prod.mk.injEq] at hdel
          obtain ⟨h1, h2⟩ := hdel
          subst h2
          exact ⟨hc, hm⟩
        next hcnt =>
          have hnone : ∀ m ∈ s.current.media, (m.source_id == sid) = false := by
            have hlen : (s.current.media.filter
                (fun m => m.source_id == sid)).length = 0 := by omega
            have hnil := List.length_eq_zero.mp hlen
            intro m hmem
            by_contra hb
            rw [Bool.not_eq_false] at hb
            have : m ∈ s.current.media.filter (fun m => m.source_id == sid) :=
              List.mem_filter.mpr ⟨hmem, hb⟩
            rw [hnil] at this
            exact List.not_mem_nil m this
          have hcur : refOK { s.current with
              sources := s.current.sources.filter (fun x => x.id != sid) } := by
            intro m hmem
            obtain ⟨src1, hs1, hid1⟩ := hc m hmem
            refine ⟨src1, List.mem_filter.mpr ⟨hs1, ?_⟩, hid1⟩
            have hms : m.source_id ≠ sid := by
              intro he
              have := hnone m hmem
              rw [he] at this
              simp at this
            rw [bne_iff_ne, ne_eq, hid1]
            exact hms
          rw [commitOrRollback] at hdel
          split at hdel
          next s'2 hok =>
            simp only [Except.ok.injEq, Prod.mk.injEq] at hdel
            obtain ⟨h1, h2⟩ := hdel
            subst h2
            split at hok
            next hokc =>
              injection hok with _ h3
              subst h3
              exact ⟨hcur, hcur⟩
            next hokc =>
              injection hok with h3 _
              exact absurd h3 (by decide)
          next s'2 hok =>
            simp only [Except.ok.injEq, Prod.mk.injEq] at hdel
            obtain ⟨h1, h2⟩ := hdel
            subst h2
            split at hok
            next hokc =>
              injection hok with h3 _
              exact absurd h3 (by decide)
            next hokc =>
              injection hok with _ h3
              subst h3
              exact ⟨hm, hm⟩



theorem c4_witness :
    refOK c5wdb ∧
    refOK (add_media_to_db (Session.clean c5wdb) "u2" "t2" 2 none 9
      1).2.committed ∧
    delete_source_from_db (Session.clean c5wdb) (.inr 2) =
      .ok (.success 2, Session.clean
        ⟨[⟨1, "A", "https://a", 0⟩], [⟨3, "u", "t", "h", 1, 0⟩], [], []⟩) ∧
    refOK (⟨[⟨1, "A", "https://a", 0⟩], [⟨3, "u", "t", "h", 1, 0⟩], [], []⟩ :
      DB) := by
  have hr : refOK c5wdb := by
    unfold refOK
    decide
  have h := c4_referential_integrity_amended (Session.clean c5wdb) "u2" "t2"
    2 none 9 1 (.inr 2) hr hr
  have hdel : delete_source_from_db (Session.clean c5wdb) (.inr 2) =
      .ok (.success 2, Session.clean
        ⟨[⟨1, "A", "https://a", 0⟩], [⟨3, "u", "t", "h", 1, 0⟩], [], []⟩) := by
    rfl
  exact ⟨hr, (h.1 ⟨⟨2, "B", "https://b", 0⟩, by decide, rfl⟩).2,
    hdel, (h.2 _ _ hdel).1⟩

/-! ## Round-trip create/search source (C7) -/

/-- C7 (amended): starting from a store satisfying its uniqueness
constraints with no Source named "YouTube", none whose base_url contains
"youtube" case-insensitively, and a fresh id, the add succeeds storing the
slash-stripped base_url and the subsequent base_url="youtube" search
returns exactly the created Source. -/
theorem c7_roundtrip_amended (db : DB) (newId now : Nat)
    (hok : dbOK db = true)
    (hname : ∀ src ∈ db.sources, src.name ≠ "YouTube")
    (hurl : ∀ src ∈ db.sources, substrCI "youtube" src.base_url = false)
    (hid : ∀ src ∈ db.sources, src.id ≠ newId) :
    (add_source_to_db (Session.clean db) "YouTube" "https://www.youtube.com/"
        newId now).1 = .success newId "YouTube" "https://www.youtube.com" ∧
    search_source_in_db
        (add_source_to_db (Session.clean db) "YouTube"
          "https://www.youtube.com/" newId now).2 none none (some "youtube") =
      [⟨newId, "YouTube", "https://www.youtube.com", now⟩] := by
  have e1 : pyStrip "YouTube" = "YouTube" := rfl
  have e2 : pyRstripSlash (pyStrip "https://www.youtube.com/") =
      "https://www.youtube.com" := rfl
  have hfind : db.sources.find?
      (fun src => src.base_url == "https://www.youtube.com") = none := by
    rw [List.find?_eq_none]
    intro src hsrc hb
    have hbu : src.base_url = "https://www.youtube.com" := beq_iff_eq.mp hb
    have := hurl src hsrc
    rw [hbu] at this
    exact absurd this (by decide)
  set yt : Source := ⟨newId, "YouTube", "https://www.youtube.com", now⟩ with hyt
  have hytname : yt.name = "YouTube" := rfl
  have hytbu : yt.base_url = "https://www.youtube.com" := rfl
  have hcur : dbOK { db with sources := db.sources ++ [yt] } = true := by
    simp only [dbOK, Bool.and_eq_true] at hok ⊢
    obtain ⟨⟨⟨⟨⟨⟨⟨o1, o2⟩, o3⟩, o4⟩, o5⟩, o6⟩, o7⟩, o8⟩ := hok
    refine ⟨⟨⟨⟨⟨⟨⟨?_, ?_⟩, ?_⟩, o4⟩, o5⟩, o6⟩, o7⟩, o8⟩
    · rw [nodupBy_iff, List.pairwise_append]
      refine ⟨(nodupBy_iff _ _).mp o1, by simp, ?_⟩
      intro a ha b hb
      rcases List.mem_singleton.mp hb with rfl
      exact fun h => hid a ha h
    · rw [nodupByS_iff, List.pairwise_append]
      refine ⟨(nodupByS_iff _ _).mp o2, by simp, ?_⟩
      intro a ha b hb
      rcases List.mem_singleton.mp hb with rfl
      exact fun h => hname a ha h
    · rw [nodupByS_iff, List.pairwise_append]
      refine ⟨(nodupByS_iff _ _).mp o3, by simp, ?_⟩
      intro a ha b hb
      rcases List.mem_singleton.mp hb with rfl
      intro h
      have := hurl a ha
      rw [h, hytbu] at this
      exact absurd this (by decide)
  have hadd : add_source_to_db (Session.clean db) "YouTube"
      "https://www.youtube.com/" newId now =
      (.success newId "YouTube" "https://www.youtube.com",
        Session.clean { db with sources := db.sources ++ [yt] }) := by
    unfold add_source_to_db
    rw [e1, e2]
    show (match db.sources.find?
        (fun src => src.base_url == "https://www.youtube.com") with
      | some _ => _
      | none => _) = _
    rw [hfind]
    show (match commitOrRollback (Session.clean db)
        { db with sources := db.sources ++ [yt] } with
      | (true, s') =>
        (AddSourceRes.success newId "YouTube" "https://www.youtube.com", s')
      | (false, s') => (AddSourceRes.errSqlalchemy, s')) = _
    rw [commitOrRollback, if_pos hcur]
    rfl
  rw [hadd]
  refine ⟨rfl, ?_⟩
  unfold search_source_in_db
  have hw : wildcardFree "youtube" = true := by decide
  have hps : pyStrip "youtube" = "youtube" := rfl
  show List.filter _ (db.sources ++ [yt]) = [yt]
  rw [List.filter_append]
  have hold : db.sources.filter
      (fun src => ilike ("%" ++ pyStrip "youtube" ++ "%") src.base_url) = [] := by
    rw [List.filter_eq_nil_iff]
    intro src hsrc
    rw [hps, ilike_substr _ _ hw, hurl src hsrc]
    simp
  rw [hold]
  have hpred : ilike ("%" ++ pyStrip "youtube" ++ "%") yt.base_url = true := by
    rw [hps, hytbu]
    decide
  rw [List.nil_append]
  simp [List.filter, hpred]

theorem c7_witness :
    dbOK c7wdb = true ∧
    (add_source_to_db (Session.clean c7wdb) "YouTube"
        "https://www.youtube.com/" 9 3).1 =
      .success 9 "YouTube" "https://www.youtube.com" ∧
    search_source_in_db
        (add_source_to_db (Session.clean c7wdb) "YouTube"
          "https://www.youtube.com/" 9 3).2 none none (some "youtube") =
      [⟨9, "YouTube", "https://www.youtube.com", 3⟩] := by
  have h := c7_roundtrip_amended c7wdb 9 3 (by decide) (by decide)
    (by decide) (by decide)
  exact ⟨by decide, h.1, h.2⟩

/-! ## Album creation atomicity (C3) -/

theorem contains_mem (l : List Nat) (x : Nat) :
    l.contains x = true ↔ x ∈ l :=
  ⟨List.mem_of_elem_eq_true, List.elem_eq_true_of_mem⟩

theorem nodupBy_map (f : α → Nat) (l : List α) (h : nodupBy f l = true) :
    (l.map f).Nodup :=
  (List.pairwise_map).mpr ((nodupBy_iff f l).mp h)

/-- When every id resolves, the rows whose `f`-value lies in `ids` carry
exactly the ids. -/
theorem filter_ids_toFinset (f : α → Nat) (l : List α) (ids : List Nat)
    (hres : ∀ u ∈ ids, ∃ x ∈ l, f x = u) :
    ((l.filter (fun x => ids.contains (f x))).map f).toFinset =
      ids.toFinset := by
  ext u
  simp only [List.mem_toFinset, List.mem_map]
  constructor
  · rintro ⟨x, hx, rfl⟩
    have hpx := List.of_mem_filter hx
    exact (contains_mem _ _).mp hpx
  · intro hu
    obtain ⟨x, hx, rfl⟩ := hres u hu
    exact ⟨x, List.mem_filter.mpr ⟨hx, (contains_mem _ _).mpr hu⟩, rfl⟩

theorem filter_ids_length (f : α → Nat) (l : List α) (ids : List Nat)
    (hnod : (l.map f).Nodup) (hids : ids.Nodup)
    (hres : ∀ u ∈ ids, ∃ x ∈ l, f x = u) :
    (l.filter (fun x => ids.contains (f x))).length = ids.length := by
  have hEnod : ((l.filter (fun x => ids.contains (f x))).map f).Nodup :=
    hnod.sublist ((List.filter_sublist l).map f)
  calc (l.filter (fun x => ids.contains (f x))).length
      = ((l.filter (fun x => ids.contains (f x))).map f).length :=
        (List.length_map _ _).symm
    _ = ((l.filter (fun x => ids.contains (f x))).map f).toFinset.card :=
        (List.toFinset_card_of_nodup hEnod).symm
    _ = ids.toFinset.card := by rw [filter_ids_toFinset f l ids hres]
    _ = ids.length := List.toFinset_card_of_nodup hids

/-- If some id in `ids` resolves to no row, strictly fewer rows match than
there are ids. -/
theorem filter_ids_length_ne (f : α → Nat) (l : List α) (ids : List Nat)
    (hnod : (l.map f).Nodup) (u : Nat) (hu : u ∈ ids)
    (hunres : ∀ x ∈ l, f x ≠ u) :
    (l.filter (fun x => ids.contains (f x))).length ≠ ids.length := by
  have hEnod : ((l.filter (fun x => ids.contains (f x))).map f).Nodup :=
    hnod.sublist ((List.filter_sublist l).map f)
  have hsub : ((l.filter (fun x => ids.contains (f x))).map f).toFinset ⊆
      ids.toFinset.erase u := by
    intro v hv
    simp only [List.mem_toFinset, List.mem_map] at hv
    obtain ⟨x, hx, rfl⟩ := hv
    refine Finset.mem_erase.mpr ⟨hunres x (List.mem_of_mem_filter hx), ?_⟩
    have hpx := List.of_mem_filter hx
    exact List.mem_toFinset.mpr ((contains_mem _ _).mp hpx)
  have h1 : ((l.filter (fun x => ids.contains (f x))).map f).toFinset.card ≤
      (ids.toFinset.erase u).card := Finset.card_le_card hsub
  have h2 : (ids.toFinset.erase u).card < ids.toFinset.card :=
    Finset.card_erase_lt_of_mem (List.mem_toFinset.mpr hu)
  have h3 : ids.toFinset.card ≤ ids.length := List.toFinset_card_le ids
  have h4 : ((l.filter (fun x => ids.contains (f x))).map f).toFinset.card =
      (l.filter (fun x => ids.contains (f x))).length := by
    rw [List.toFinset_card_of_nodup hEnod, List.length_map]
  omega



/-- C3 (amended): when at least one media id does not resolve,
`add_album_to_db` creates nothing and reports exactly the set of missing
ids; when the (duplicate-free) ids all resolve, the created album's
membership is exactly the resolved set. -/
theorem c3_add_album_amended (s : Session) (name : String)
    (strs : List String) (uuids : List Nat) (newId : Nat)
    (hname : s.current.albums.find? (fun a => a.name == pyStrip name) = none)
    (hstrs : strs.isEmpty = false)
    (hparse : strs.mapM parseUUID = some uuids)
    (hne2 : uuids.isEmpty = false) :
    ((∃ u ∈ uuids, ∀ m ∈ s.current.media, m.id ≠ u) →
      nodupBy Media.id s.current.media = true →
      add_album_to_db s name (some strs) newId =
        (.errMediaNotFound (setDiff uuids
          ((s.current.media.filter (fun m => uuids.contains m.id)).map
            Media.id)), s) ∧
      (∀ v, v ∈ setDiff uuids
          ((s.current.media.filter (fun m => uuids.contains m.id)).map
            Media.id) ↔
        (v ∈ uuids ∧ ∀ m ∈ s.current.media, m.id ≠ v))) ∧
    (uuids.Nodup →
      (∀ u ∈ uuids, ∃ m ∈ s.current.media, m.id = u) →
      dbOK s.current = true →
      (∀ a ∈ s.current.albums, a.id ≠ newId) →
      (∀ p ∈ s.current.assoc, p.1 ≠ newId) →
      (add_album_to_db s name (some strs) newId).1.status = .success ∧
      (add_album_to_db s name (some strs) newId).2.committed =
        { s.current with
          albums := s.current.albums ++ [⟨newId, pyStrip name⟩],
          assoc := s.current.assoc ++
            (s.current.media.filter (fun m => uuids.contains m.id)).map
              (fun m => (newId, m.id)) } ∧
      (∀ u, (newId, u) ∈
          (add_album_to_db s name (some strs) newId).2.committed.assoc ↔
        u ∈ uuids)) := by
  constructor
  · rintro ⟨u, hu, hunres⟩ hnodmedia
    constructor
    · unfold add_album_to_db
      simp only [hname, hstrs, Bool.false_eq_true, if_false, hparse, hne2]
      rw [if_pos (bne_iff_ne.mpr
        (filter_ids_length_ne Media.id s.current.media uuids
          (nodupBy_map _ _ hnodmedia) u hu hunres))]
    · intro v
      rw [mem_setDiff]
      constructor
      · rintro ⟨hv1, hv2⟩
        refine ⟨hv1, fun m hm he => hv2 ?_⟩
        rw [List.mem_map]
        exact ⟨m, List.mem_filter.mpr ⟨hm, (contains_mem _ _).mpr
          (he ▸ hv1)⟩, he⟩
      · rintro ⟨hv1, hv2⟩
        refine ⟨hv1, fun hv3 => ?_⟩
        rw [List.mem_map] at hv3
        obtain ⟨m, hm, he⟩ := hv3
        exact hv2 m (List.mem_of_mem_filter hm) he
  · intro hnodids hres hok hfresh hfresh2
    have hlen : (s.current.media.filter
        (fun m => uuids.contains m.id)).length = uuids.length := by
      have hmn : (s.current.media.map Media.id).Nodup := by
        apply nodupBy_map
        simp only [dbOK, Bool.and_eq_true] at hok
        exact hok.1.1.1.1.2
      exact filter_ids_length Media.id s.current.media uuids hmn hnodids hres
    have hcond : ¬ (((s.current.media.filter
        (fun m => uuids.contains m.id)).length != uuids.length) = true) := by
      intro h
      exact (bne_iff_ne.mp h) hlen
    have hcurOK : dbOK { s.current with
        albums := s.current.albums ++ [⟨newId, pyStrip name⟩],
        assoc := s.current.assoc ++
          (s.current.media.filter (fun m => uuids.contains m.id)).map
            (fun m => (newId, m.id)) } = true := by
      simp only [dbOK, Bool.and_eq_true] at hok ⊢
      obtain ⟨⟨⟨⟨⟨⟨⟨o1, o2⟩, o3⟩, o4⟩, o5⟩, o6⟩, o7⟩, o8⟩ := hok
      refine ⟨⟨⟨⟨⟨⟨⟨o1, o2⟩, o3⟩, o4⟩, o5⟩, o6⟩, ?_⟩, ?_⟩
      · rw [nodupBy_iff, List.pairwise_append]
        refine ⟨(nodupBy_iff _ _).mp o7, by simp, ?_⟩
        intro a ha b hb
        rcases List.mem_singleton.mp hb with rfl
        exact fun h => hfresh a ha h
      · rw [nodupByS_iff, List.pairwise_append]
        refine ⟨(nodupByS_iff _ _).mp o8, by simp, ?_⟩
        intro a ha b hb
        rcases List.mem_singleton.mp hb with rfl
        intro h
        have := List.find?_eq_none.mp hname a ha
        exact this (beq_iff_eq.mpr h)
    have hstep : add_album_to_db s name (some strs) newId =
        (.success newId (pyStrip name)
          ((s.current.media.filter (fun m => uuids.contains m.id)).map
            Media.id),
         Session.clean { s.current with
          albums := s.current.albums ++ [⟨newId, pyStrip name⟩],
          assoc := s.current.assoc ++
            (s.current.media.filter (fun m => uuids.contains m.id)).map
              (fun m => (newId, m.id)) }) := by
      unfold add_album_to_db
      simp only [hname, hstrs, Bool.false_eq_true, if_false, hparse, hne2]
      rw [if_neg hcond, commitOrRollback, if_pos hcurOK]
      rfl
    rw [hstep]
    refine ⟨rfl, rfl, fun u => ?_⟩
    show (newId, u) ∈ s.current.assoc ++
        (s.current.media.filter (fun m => uuids.contains m.id)).map
          (fun m => (newId, m.id)) ↔ u ∈ uuids
    rw [List.mem_append]
    constructor
    · rintro (hin | hin)
      · exact absurd rfl (hfresh2 _ hin)
      · rw [List.mem_map] at hin
        obtain ⟨m, hm, he⟩ := hin
        have heq : m.id = u := ((Prod.mk.injEq _ _ _ _).mp he.symm).2.symm
        have hmem : u ∈ ((s.current.media.filter
            (fun m => uuids.contains m.id)).map Media.id) := by
          rw [List.mem_map]
          exact ⟨m, hm, heq⟩
        have := List.mem_toFinset.mpr hmem
        rw [filter_ids_toFinset Media.id s.current.media uuids hres] at this
        exact List.mem_toFinset.mp this
    · intro hu
      right
      have : u ∈ ((s.current.media.filter
          (fun m => uuids.contains m.id)).map Media.id).toFinset := by
        rw [filter_ids_toFinset Media.id s.current.media uuids hres]
        exact List.mem_toFinset.mpr hu
      have := List.mem_toFinset.mp this
      rw [List.mem_map] at this ⊢
      obtain ⟨m, hm, he⟩ := this
      exact ⟨m, hm, by rw [he]⟩



theorem c3_witness :
    ["00000000-0000-0000-0000-000000000001",
     "00000000-0000-0000-0000-000000000002"].mapM parseUUID =
      some [1, 2] ∧
    (add_album_to_db (Session.clean c3wdb) "Mix"
        (some ["00000000-0000-0000-0000-000000000001",
               "00000000-0000-0000-0000-000000000002"]) 7).1.status =
      .success ∧
    (∀ u, (7, u) ∈ (add_album_to_db (Session.clean c3wdb) "Mix"
        (some ["00000000-0000-0000-0000-000000000001",
               "00000000-0000-0000-0000-000000000002"]) 7).2.committed.assoc ↔
      u ∈ [1, 2]) ∧
    add_album_to_db (Session.clean c3wdb) "Mix"
        (some ["00000000-0000-0000-0000-000000000001",
               "00000000-0000-0000-0000-000000000063"]) 8 =
      (.errMediaNotFound (setDiff [1, 99]
        ((c3wdb.media.filter (fun m => [1, 99].contains m.id)).map Media.id)),
       Session.clean c3wdb) := by
  have hB := (c3_add_album_amended (Session.clean c3wdb) "Mix"
      ["00000000-0000-0000-0000-000000000001",
       "00000000-0000-0000-0000-000000000002"] [1, 2] 7
      (by decide) (by decide) (by decide) (by decide)).2
      (by decide) (by decide) (by decide) (by decide) (by decide)
  have hA := (c3_add_album_amended (Session.clean c3wdb) "Mix"
      ["00000000-0000-0000-0000-000000000001",
       "00000000-0000-0000-0000-000000000063"] [1, 99] 8
      (by decide) (by decide) (by decide) (by decide)).1
      ⟨99, by decide, by decide⟩ (by decide)
  exact ⟨by decide, hB.1, hB.2.2, hA.1⟩

/-! ## Album membership replacement (C6) -/

theorem map_id_on (f : α → α) :
    ∀ (l : List α), (∀ a ∈ l, f a = a) → l.map f = l := by
  intro l
  induction l with
  | nil => intro _; rfl
  | cons x xs ih =>
    intro h
    rw [List.map_cons, h x (List.mem_cons_self _ _),
      ih (fun a ha => h a (List.mem_cons_of_mem _ ha))]

/-- C6 (amended): supplying a NONEMPTY album_ids list to
`update_media_in_db`, any successful call leaves the media's membership
exactly the set of albums resolved from album_ids (wholesale replacement,
not a merge); and success is guaranteed when album_ids is duplicate-free,
every id resolves, no other field is supplied and the store satisfies its
uniqueness constraints. -/
theorem c6_membership_replacement_amended (s : Session) (media_id : Nat)
    (title url : Option String) (source_id : Option Nat) (aids : List Nat)
    (m : Media)
    (hfind : s.current.media.find? (fun x => x.id == media_id) = some m)
    (hne : aids.isEmpty = false) :
    ((update_media_in_db s media_id title url source_id (some aids)).1.status
        = .success →
      ∀ a, ((a, media_id) ∈ (update_media_in_db s media_id title url
          source_id (some aids)).2.committed.assoc ↔ a ∈ aids)) ∧
    (aids.Nodup → (∀ u ∈ aids, ∃ alb ∈ s.current.albums, alb.id = u) →
      dbOK s.current = true →
      (update_media_in_db s media_id none none none (some aids)).1.status =
        .success) := by
  constructor
  · unfold update_media_in_db
    simp only [hfind, hne, Bool.not_false, if_true]
    split
    next hlene =>
      intro hsucc
      simp [UpdMediaRes.status] at hsucc
    next hlene =>
      have hleneq : (s.current.albums.filter
          (fun x => aids.contains x.id)).length = aids.length := by
        by_contra hne'
        exact hlene (bne_iff_ne.mpr hne')
      split
      next s' h =>
        rw [commitOrRollback] at h
        split at h
        next hok =>
          injection h with _ h2
          subst h2
          intro _ a
          show (a, media_id) ∈ s.current.assoc.filter
              (fun p => p.2 != media_id) ++
              (s.current.albums.filter (fun x => aids.contains x.id)).map
                (fun x => (x.id, media_id)) ↔ a ∈ aids
          rw [List.mem_append]
          constructor
          · rintro (hin | hin)
            · have := List.of_mem_filter hin
              simp only [bne_self_eq_false] at this
              exact absurd this (by decide)
            · rw [List.mem_map] at hin
              obtain ⟨alb, halb, he⟩ := hin
              have heq : alb.id = a := ((Prod.mk.injEq _ _ _ _).mp he).1
              have hpx := List.of_mem_filter halb
              rw [heq] at hpx
              exact (contains_mem _ _).mp hpx
          · intro ha
            right
            have hnodalb : ((s.current.albums.filter
                (fun x => aids.contains x.id)).map Album.id).Nodup := by
              have o7 : nodupBy Album.id s.current.albums = true := by
                simp only [dbOK, Bool.and_eq_true] at hok
                exact hok.1.2
              exact (nodupBy_map _ _ o7).sublist
                ((List.filter_sublist _).map Album.id)
            have hsub : ∀ x ∈ (s.current.albums.filter
                (fun x => aids.contains x.id)).map Album.id, x ∈ aids := by
              intro x hx
              rw [List.mem_map] at hx
              obtain ⟨alb, halb, he⟩ := hx
              have hpx := List.of_mem_filter halb
              rw [he] at hpx
              exact (contains_mem _ _).mp hpx
            have hlen2 : aids.length ≤ ((s.current.albums.filter
                (fun x => aids.contains x.id)).map Album.id).length := by
              rw [List.length_map, hleneq]
            have := subset_mem_of_length_le _ _ hnodalb hsub hlen2 a ha
            rw [List.mem_map] at this
            obtain ⟨alb, halb, he⟩ := this
            rw [List.mem_map]
            exact ⟨alb, halb, by rw [he]⟩
        next hok =>
          injection h with h1 _
          exact absurd h1 (by decide)
      next s' h =>
        intro hsucc
        simp [UpdMediaRes.status] at hsucc
  · intro hnodids hres hok
    unfold update_media_in_db
    simp only [hfind, hne, Bool.not_false, if_true]
    have hmid := List.find?_some hfind
    have o4 : nodupBy Media.id s.current.media = true := by
      simp only [dbOK, Bool.and_eq_true] at hok
      exact hok.1.1.1.1.2
    have hmap : s.current.media.map
        (fun x => if x.id == media_id then updatedMedia m none none none
          else x) = s.current.media := by
      apply map_id_on
      intro x hx
      by_cases hxi : (x.id == media_id) = true
      · rw [if_pos hxi]
        have hxm : x = m := by
          apply List.inj_on_of_nodup_map (nodupBy_map Media.id _ o4) hx
            (List.mem_of_find?_eq_some hfind)
          rw [beq_iff_eq.mp hxi, ← beq_iff_eq.mp hmid]
        rw [hxm]
        rfl
      · rw [if_neg hxi]
    have hleneq : (s.current.albums.filter
        (fun x => aids.contains x.id)).length = aids.length := by
      have o7 : nodupBy Album.id s.current.albums = true := by
        simp only [dbOK, Bool.and_eq_true] at hok
        exact hok.1.2
      exact filter_ids_length Album.id s.current.albums aids
        (nodupBy_map _ _ o7) hnodids hres
    have hcond : ¬ (((s.current.albums.filter
        (fun x => aids.contains x.id)).length != aids.length) = true) := by
      intro h
      exact (bne_iff_ne.mp h) hleneq
    rw [if_neg hcond, commitOrRollback]
    rw [if_pos ?hok2]
    case hok2 =>
      simp only [dbOK, Bool.and_eq_true] at hok ⊢
      obtain ⟨⟨⟨⟨⟨⟨⟨o1, o2⟩, o3⟩, o4'⟩, o5⟩, o6⟩, o7⟩, o8⟩ := hok
      refine ⟨⟨⟨⟨⟨⟨⟨o1, o2⟩, o3⟩, ?_⟩, ?_⟩, ?_⟩, o7⟩, o8⟩
      · rw [hmap]; exact o4'
      · rw [hmap]; exact o5
      · rw [hmap]; exact o6
    rfl



theorem c6_witness :
    (update_media_in_db (Session.clean c6db) 5 none none none
        (some [2])).1.status = .success ∧
    (∀ a, (a, 5) ∈ (update_media_in_db (Session.clean c6db) 5 none none none
        (some [2])).2.committed.assoc ↔ a ∈ [2]) := by
  have h := c6_membership_replacement_amended (Session.clean c6db) 5 none none
    none [2] ⟨5, "u", "t", "h", 10, 0⟩ (by decide) (by decide)
  have hs := h.2 (by decide) (by decide) (by decide)
  exact ⟨hs, h.1 hs⟩

end SoundBase
